import Mathlib

/-!
Verification development for the Smart Recipe Analyzer backend
(`services/recipe_service.py`, `services/gemini_service.py`,
`services/storage_service.py`, `models.py`).

Python strings are modelled as `List Char`; Python `str.strip`, `str.lower`,
`str.find`, `str.rfind` and slicing are modelled by the functions below.
The external generative-model call (`model.generate_content`) is the only
collaborator outside the repository; it is passed in as an explicit
`Except`-valued outcome (error message raised, or raw text returned).
-/

namespace Axium

/-- Whitespace recognised by Python's `str.strip` (the ASCII subset:
space, tab, newline, carriage return, vertical tab, form feed). -/
def isPySpace (c : Char) : Bool :=
  c.toNat = 32 ∨ c.toNat = 9 ∨ c.toNat = 10 ∨ c.toNat = 13 ∨ c.toNat = 11 ∨ c.toNat = 12

/-- Model of Python `str.strip()`: drop leading and trailing whitespace. -/
def pyStrip (s : List Char) : List Char :=
  ((s.dropWhile isPySpace).reverse.dropWhile isPySpace).reverse

/-- Model of Python `str.lower()` (character-wise ASCII case folding, as
`str.lower` acts on the ASCII strings this service handles). -/
def pyLower (s : List Char) : List Char := s.map Char.toLower

/-- Python slice `s[a:b]` for non-negative indices: empty when `b ≤ a`. -/
def pySlice (s : List Char) (a b : Nat) : List Char :=
  (s.drop a).take (b - a)

/-- The pattern `pat` occurs in `s` at index `i`
(for non-empty `pat` this forces `i + pat.length ≤ s.length`). -/
def occursAt (s pat : List Char) (i : Nat) : Prop :=
  (s.drop i).take pat.length = pat

instance (s pat : List Char) (i : Nat) : Decidable (occursAt s pat i) := by
  unfold occursAt; infer_instance

/-- Index `p` is the first occurrence of `pat` in `s`. -/
def isFirstOcc (s pat : List Char) (p : Nat) : Prop :=
  occursAt s pat p ∧ ∀ j, j < p → ¬ occursAt s pat j

/-- Index `q` is the last occurrence of `pat` in `s` (the quantifier is
bounded by `s.length` to stay decidable; a non-empty pattern cannot occur
beyond that bound). -/
def isLastOcc (s pat : List Char) (q : Nat) : Prop :=
  occursAt s pat q ∧ ∀ j, j ≤ s.length → occursAt s pat j → j ≤ q

instance (s pat : List Char) (p : Nat) : Decidable (isFirstOcc s pat p) := by
  unfold isFirstOcc; infer_instance

instance (s pat : List Char) (q : Nat) : Decidable (isLastOcc s pat q) := by
  unfold isLastOcc; infer_instance

/-- Scan upward from index `i` with the given fuel, returning the first
index at which `pat` occurs (model of Python `str.find`'s scan). -/
def findFrom (s pat : List Char) : Nat → Nat → Option Nat
  | _, 0 => none
  | i, fuel + 1 =>
    if occursAt s pat i then some i else findFrom s pat (i + 1) fuel

/-- Model of Python `str.find`: index of the first occurrence
(`none` plays the role of Python's `-1`, which the source always guards
with an `in` test before using). -/
def findSub (s pat : List Char) : Option Nat :=
  findFrom s pat 0 (s.length + 1)

/-- Scan downward from index `i`, returning the largest index `≤ i` at which
`pat` occurs (model of Python `str.rfind`'s scan). -/
def rfindDown (s pat : List Char) : Nat → Option Nat
  | 0 => if occursAt s pat 0 then some 0 else none
  | i + 1 => if occursAt s pat (i + 1) then some (i + 1) else rfindDown s pat i

/-- Model of Python `str.rfind`: index of the last occurrence. -/
def rfindSub (s pat : List Char) : Option Nat :=
  rfindDown s pat s.length

/-- Model of Python's `pat in s` substring test. -/
def containsSub (s pat : List Char) : Bool :=
  (findSub s pat).isSome

/-! JSON values and a model of `json.loads`.

The decoder below models Python's `json.loads` on the JSON subset this
service exchanges: objects, arrays, strings with the common backslash
escapes, integers, booleans and null.  (Float literals and `\uXXXX`
escapes are rejected by the model; neither is exercised by the service's
schema, whose only number is the integer `calories`.) -/

/-- A decoded JSON value.  Objects keep their members in source order;
`jsonGet` below reads them with Python-dict semantics (last
duplicate wins). -/
inductive Json where
  | jnull : Json
  | jbool : Bool → Json
  | jnum : Int → Json
  | jstr : List Char → Json
  | jarr : List Json → Json
  | jobj : List (List Char × Json) → Json

/-- JSON insignificant whitespace. -/
def isJsonWs (c : Char) : Bool :=
  c = ' ' ∨ c = '\t' ∨ c = '\n' ∨ c = '\r'

def skipWs (s : List Char) : List Char := s.dropWhile isJsonWs

/-- Decode a backslash escape character. -/
def escChar (c : Char) : Option Char :=
  if c = '"' then some '"'
  else if c = '\\' then some '\\'
  else if c = '/' then some '/'
  else if c = 'n' then some '\n'
  else if c = 't' then some '\t'
  else if c = 'r' then some '\r'
  else if c = 'b' then some '\x08'
  else if c = 'f' then some '\x0c'
  else none

/-- Parse the rest of a string literal (the opening quote already
consumed), returning the decoded characters and the remaining input. -/
def parseStringRest : List Char → Option (List Char × List Char)
  | [] => none
  | '"' :: r => some ([], r)
  | '\\' :: e :: r => do
    let c ← escChar e
    let (cs, r2) ← parseStringRest r
    pure (c :: cs, r2)
  | c :: r => do
    let (cs, r2) ← parseStringRest r
    pure (c :: cs, r2)

def isDigit (c : Char) : Bool := '0' ≤ c ∧ c ≤ '9'

/-- Parse a non-empty run of decimal digits. -/
def parseDigits (s : List Char) : Option (Nat × List Char) :=
  let digits := s.takeWhile isDigit
  if digits = [] then none
  else some (digits.foldl (fun acc c => 10 * acc + (c.toNat - 48)) 0, s.drop digits.length)

/-- Parse a JSON number (integers only; a following `.`, `e` or `E` —
a float literal — makes the model decoder fail). -/
def parseNumber (s : List Char) : Option (Json × List Char) :=
  match s with
  | '-' :: r => do
    let (n, r2) ← parseDigits r
    match r2 with
    | c :: _ => if c = '.' ∨ c = 'e' ∨ c = 'E' then none else pure (Json.jnum (-(n : Int)), r2)
    | [] => pure (Json.jnum (-(n : Int)), r2)
  | _ => do
    let (n, r2) ← parseDigits s
    match r2 with
    | c :: _ => if c = '.' ∨ c = 'e' ∨ c = 'E' then none else pure (Json.jnum (n : Int), r2)
    | [] => pure (Json.jnum (n : Int), r2)

mutual

/-- Parse one JSON value (fueled recursion). -/
def parseValue : Nat → List Char → Option (Json × List Char)
  | 0, _ => none
  | fuel + 1, s =>
    match skipWs s with
    | [] => none
    | '{' :: rest =>
      (match skipWs rest with
       | '}' :: r2 => some (Json.jobj [], r2)
       | r2 => do
         let (ms, r3) ← parseMembers fuel r2
         pure (Json.jobj ms, r3))
    | '[' :: rest =>
      (match skipWs rest with
       | ']' :: r2 => some (Json.jarr [], r2)
       | r2 => do
         let (xs, r3) ← parseItems fuel r2
         pure (Json.jarr xs, r3))
    | '"' :: rest => do
      let (cs, r2) ← parseStringRest rest
      pure (Json.jstr cs, r2)
    | 't' :: rest =>
      if rest.take 3 = ['r', 'u', 'e'] then some (Json.jbool true, rest.drop 3) else none
    | 'f' :: rest =>
      if rest.take 4 = ['a', 'l', 's', 'e'] then some (Json.jbool false, rest.drop 4) else none
    | 'n' :: rest =>
      if rest.take 3 = ['u', 'l', 'l'] then some (Json.jnull, rest.drop 3) else none
    | other => parseNumber other

/-- Parse the comma-separated items of a non-empty array, including the
closing bracket. -/
def parseItems : Nat → List Char → Option (List Json × List Char)
  | 0, _ => none
  | fuel + 1, s => do
    let (v, r) ← parseValue fuel s
    match skipWs r with
    | ',' :: r2 => do
      let (vs, r3) ← parseItems fuel r2
      pure (v :: vs, r3)
    | ']' :: r2 => pure ([v], r2)
    | _ => none

/-- Parse the comma-separated members of a non-empty object, including
the closing brace. -/
def parseMembers : Nat → List Char → Option (List (List Char × Json) × List Char)
  | 0, _ => none
  | fuel + 1, s =>
    match skipWs s with
    | '"' :: rest => do
      let (k, r) ← parseStringRest rest
      (match skipWs r with
       | ':' :: r2 => do
         let (v, r3) ← parseValue fuel r2
         (match skipWs r3 with
          | ',' :: r4 => do
            let (ms, r5) ← parseMembers fuel r4
            pure ((k, v) :: ms, r5)
          | '}' :: r4 => pure ([(k, v)], r4)
          | _ => none)
       | _ => none)
    | _ => none

end

/-- Model of Python `json.loads`: decode the whole input as a single JSON
document (trailing whitespace permitted), or fail. -/
def jsonDecode (s : List Char) : Option Json :=
  match parseValue (2 * s.length + 4) s with
  | some (v, rest) => if skipWs rest = [] then some v else none
  | none => none

/-- Read key `k` of a decoded object with Python-dict semantics
(the last duplicate of a key wins). -/
def jsonGet (fields : List (List Char × Json)) (k : List Char) : Option Json :=
  (fields.reverse.find? (fun p => p.1 == k)).map (·.2)

/-! Models from `models.py` and the parsing / generation services. -/

/-- Nutritional information (`models.NutritionInfo`). -/
structure NutritionInfo where
  calories : Int
  protein : List Char
  carbs : List Char
deriving DecidableEq

/-- Individual recipe (`models.Recipe`). -/
structure Recipe where
  name : List Char
  ingredients : List (List Char)
  instructions : List (List Char)
  cookingTime : List Char
  difficulty : List Char
  nutrition : NutritionInfo
deriving DecidableEq

/-- Response envelope (`models.RecipeResponse`). -/
structure RecipeResponse where
  recipes : List Recipe
  success : Bool
  message : Option (List Char)
deriving DecidableEq

/-- Read a required string field of a decoded object. -/
def getStrField (fields : List (List Char × Json)) (k : List Char) : Option (List Char) :=
  match jsonGet fields k with
  | some (Json.jstr s) => some s
  | _ => none

/-- Read a required list-of-strings field of a decoded object. -/
def getStrListField (fields : List (List Char × Json)) (k : List Char) : Option (List (List Char)) :=
  match jsonGet fields k with
  | some (Json.jarr xs) =>
    xs.mapM (fun j => match j with | Json.jstr s => some s | _ => none)
  | _ => none

/-- Construct-or-reject for `models.NutritionInfo` from a decoded value
(the structural validation `pydantic` performs when `Recipe(**data)`
builds the nested model; missing or wrongly-typed fields reject). -/
def nutritionFromJson (j : Json) : Option NutritionInfo :=
  match j with
  | Json.jobj fields => do
    let cal ← match jsonGet fields (("calories").toList) with
              | some (Json.jnum n) => some n
              | _ => none
    let prot ← getStrField fields (("protein").toList)
    let carbs ← getStrField fields (("carbs").toList)
    pure { calories := cal, protein := prot, carbs := carbs }
  | _ => none

/-- Construct-or-reject for `models.Recipe`: the model of
`Recipe(**recipe_data)` inside the parser's per-record `try`.  All required
fields must be present with the right structure; extra keys are ignored
(pydantic's default); a non-object candidate raises `TypeError` in Python,
which the per-record handler catches, so it rejects here. -/
def recipeFromJson (j : Json) : Option Recipe :=
  match j with
  | Json.jobj fields => do
    let name ← getStrField fields (("name").toList)
    let ings ← getStrListField fields (("ingredients").toList)
    let instrs ← getStrListField fields (("instructions").toList)
    let ct ← getStrField fields (("cookingTime").toList)
    let diff ← getStrField fields (("difficulty").toList)
    let nutJ ← jsonGet fields (("nutrition").toList)
    let nut ← nutritionFromJson nutJ
    pure { name := name, ingredients := ings, instructions := instrs,
           cookingTime := ct, difficulty := diff, nutrition := nut }
  | _ => none

/-- The two `ValueError`s `_parse_ai_response` can raise: a
`json.JSONDecodeError` is re-raised as "Failed to parse AI response as
JSON"; any other exception (e.g. `.get` on a non-dict payload, or
iterating a non-iterable `recipes` value) is re-raised as
"Failed to process AI response: ...". -/
inductive ParseFailure where
  | malformedJSON : ParseFailure
  | processFailure : ParseFailure
deriving DecidableEq

/-- Error text `str(e)` of each `ValueError` (for `processFailure` the
Python message also appends the description of the underlying exception;
the model keeps the fixed prefix only, which no claim inspects). -/
def describeFailure : ParseFailure → List Char
  | ParseFailure.malformedJSON => ("Failed to parse AI response as JSON").toList
  | ParseFailure.processFailure => ("Failed to process AI response").toList

/-- The fenced-block markers of `GeminiService._parse_ai_response`. -/
def tagJson : List Char := ("```json").toList

def tagFence : List Char := ("```").toList

/-- The JSON candidate `_parse_ai_response` hands to `json.loads`, for a
given already-stripped text: the fence-extraction lines of the source
(`find`/`rfind`/slice/strip).  The `.getD 0` defaults are unreachable:
each branch's guard guarantees the scans succeed. -/
def extractCandidate (cleaned : List Char) : List Char :=
  if containsSub cleaned tagJson then
    let s := (findSub cleaned tagJson).getD 0 + tagJson.length
    let e := (rfindSub cleaned tagFence).getD 0
    pyStrip (pySlice cleaned s e)
  else if containsSub cleaned tagFence then
    let s := (findSub cleaned tagFence).getD 0 + tagFence.length
    let e := (rfindSub cleaned tagFence).getD 0
    pyStrip (pySlice cleaned s e)
  else cleaned

/-- The JSON candidate for a raw response text (the source first strips
the raw text, then extracts). -/
def parseCandidate (raw : List Char) : List Char :=
  extractCandidate (pyStrip raw)

/-- The post-decode stage of `_parse_ai_response`: read `data.get("recipes", [])`
and build the per-record results.
Python semantics of the source, branch by branch:
an array iterates its elements, each `Recipe(**elem)` either constructs or
is skipped by the per-record handler; iterating a string (characters) or a
dict (keys) feeds `Recipe(**_)` a non-mapping, every element raises
`TypeError` and is skipped, yielding `[]`; a number, boolean or null is not
iterable, so the `for` raises outside the per-record handler and the outer
handler re-raises `ValueError` ("Failed to process...").
A non-dict payload raises `AttributeError` at `.get`, re-raised the same way. -/
def buildRecipes (payload : Json) : Except ParseFailure (List Recipe) :=
  match payload with
  | Json.jobj fields =>
    match (jsonGet fields (("recipes").toList)).getD (Json.jarr []) with
    | Json.jarr xs => Except.ok (xs.filterMap recipeFromJson)
    | Json.jstr _ => Except.ok []
    | Json.jobj _ => Except.ok []
    | _ => Except.error ParseFailure.processFailure
  | _ => Except.error ParseFailure.processFailure

/-- Model of `GeminiService._parse_ai_response`: strip, fence-extract,
decode (a decode failure is fatal for the whole batch), then build the
per-record results. -/
def parse_ai_response (raw : List Char) : Except ParseFailure (List Recipe) :=
  match jsonDecode (parseCandidate raw) with
  | none => Except.error ParseFailure.malformedJSON
  | some payload => buildRecipes payload

/-- Decimal rendering of a count, for the success message's `{len(recipes)}`. -/
def natChars (n : Nat) : List Char := Nat.toDigits 10 n

/-- Model of `GeminiService.generate_recipes`.  The external call
`self.model.generate_content(prompt)` is the collaborator outside the
repository: `modelOutcome` is either the exception it raised (described by
its `str(e)` text) or the raw response text it returned.  Everything after
the call is the source's code: parse, then wrap in the envelope; any
exception is caught and converted to a failure envelope. -/
def generate_recipes (ingredients : List (List Char))
    (modelOutcome : Except (List Char) (List Char)) : RecipeResponse :=
  match modelOutcome with
  | Except.error e =>
    { recipes := [], success := false,
      message := some (("Failed to generate recipes: ").toList ++ e) }
  | Except.ok text =>
    match parse_ai_response text with
    | Except.ok recipes =>
      { recipes := recipes, success := true,
        message := some (("Generated ").toList ++ natChars recipes.length
                          ++ (" recipes using your ingredients").toList) }
    | Except.error f =>
      { recipes := [], success := false,
        message := some (("Failed to generate recipes: ").toList ++ describeFailure f) }

/-- Failure envelope used by the orchestrator's early returns. -/
def failResponse (msg : List Char) : RecipeResponse :=
  { recipes := [], success := false, message := some msg }

/-- Model of `RecipeService.generate_recipes_from_ingredients`:
INPUT_CHECK, FILTER_CHECK (non-blank entries only — length is not
checked here), the client call, and RESULT_CHECK.  The surrounding
`try/except` cannot fire in the model because the client never raises. -/
def generate_recipes_from_ingredients (ingredients : List (List Char))
    (modelOutcome : Except (List Char) (List Char)) : RecipeResponse :=
  if ingredients = [] then failResponse (("No ingredients provided").toList)
  else
    let valid_ingredients := ingredients.filter (fun i => !(pyStrip i).isEmpty)
    if valid_ingredients = [] then failResponse (("No valid ingredients found").toList)
    else
      let response := generate_recipes valid_ingredients modelOutcome
      if response.success = false then response
      else if response.recipes = [] then
        failResponse (("No recipes could be generated with the provided ingredients").toList)
      else response

/-- Model of `RecipeService.sanitize_ingredients`: strip + lowercase each
entry, keep it when non-empty and at most 100 characters long. -/
def sanitize_ingredients (ingredients : List (List Char)) : List (List Char) :=
  ingredients.filterMap (fun ingredient =>
    let cleaned := pyLower (pyStrip ingredient)
    if cleaned ≠ [] ∧ cleaned.length ≤ 100 then some cleaned else none)

/-- The envelope invariant the spec states for generation-path results. -/
def envelopeOK (r : RecipeResponse) : Prop :=
  (r.success = true → r.recipes ≠ []) ∧
  (r.success = false → r.recipes = [] ∧ r.message ≠ none)

instance (r : RecipeResponse) : Decidable (envelopeOK r) := by
  unfold envelopeOK; infer_instance

/-! Interaction log (`services/storage_service.py`).  The JSON file's
`interactions` list is modelled as the store state; the `json.load`read /
append / `json.dump`-rewrite cycle of `store_interaction` becomes an
explicit state transition.  `datetime.now()` is an external input: its two
renderings (`strftime("%Y%m%d_%H%M%S")` for the id, `isoformat()` for the
timestamp field) are passed in explicitly. -/

/-- One stored interaction (the flattened shape of the nested dict built
by `store_interaction`; the `recipes` list keeps the raw dicts passed in). -/
structure InteractionRecord where
  interaction_id : List Char
  timestamp : List Char
  ingredients : List (List Char)
  ingredient_count : Nat
  raw_response : List Char
  response_length : Nat
  response_type : List Char
  recipes : List Json
  recipe_count : Nat
  success : Bool
  error_message : Option (List Char)
  processing_status : List Char

/-- Model of `generate_interaction_id`. -/
def generate_interaction_id (nowCompact : List Char) : List Char :=
  ("recipe_interaction_").toList ++ nowCompact

/-- Model of `store_interaction`: build the record, append it to the
store, return the new id together with the new store state. -/
def store_interaction (store : List InteractionRecord)
    (user_ingredients : List (List Char)) (llm_response : List Char)
    (parsed_recipes : List Json) (success : Bool)
    (error_message : Option (List Char))
    (nowCompact nowIso : List Char) : List Char × List InteractionRecord :=
  let interaction_id := generate_interaction_id nowCompact
  let rec0 : InteractionRecord :=
    { interaction_id := interaction_id
      timestamp := nowIso
      ingredients := user_ingredients
      ingredient_count := user_ingredients.length
      raw_response := llm_response
      response_length := if llm_response = [] then 0 else llm_response.length
      response_type := ("str").toList
      recipes := parsed_recipes
      recipe_count := if parsed_recipes.isEmpty then 0 else parsed_recipes.length
      success := success
      error_message := error_message
      processing_status := if success then ("success").toList else ("failed").toList }
  (interaction_id, store ++ [rec0])

/-- Model of `get_interaction_by_id`: first record whose id matches
(`None` when absent). -/
def get_interaction_by_id (store : List InteractionRecord)
    (interaction_id : List Char) : Option InteractionRecord :=
  store.find? (fun i => i.interaction_id == interaction_id)

/-- Model of `get_recent_interactions`, i.e. Python
`interactions[-limit:] if interactions else []`.  Note the Python
footgun modelled faithfully: `limit = 0` gives the slice `[-0:] = [0:]`,
the whole list. -/
def get_recent_interactions (store : List InteractionRecord)
    (limit : Nat) : List InteractionRecord :=
  if store.isEmpty then []
  else if limit = 0 then store
  else store.drop (store.length - limit)

/-- Aggregates returned by `get_storage_stats` for a non-empty store. -/
structure FullStats where
  total_interactions : Nat
  successful_interactions : Nat
  failed_interactions : Nat
  success_rate : ℚ
  total_recipes_generated : Nat
  average_recipes_per_interaction : ℚ
  file_size_bytes : Nat
deriving DecidableEq

/-- Return shape of `get_storage_stats`: the empty store returns the
one-key dict `{"total_interactions": 0}`, a non-empty store the full
aggregate dict. -/
inductive StorageStats where
  | onlyTotal : Nat → StorageStats
  | full : FullStats → StorageStats
deriving DecidableEq

/-- The success-rate field of a stats result, when it is present at all. -/
def statsSuccessRate : StorageStats → Option ℚ
  | StorageStats.onlyTotal _ => none
  | StorageStats.full s => some s.success_rate

/-- The total-interactions field of a stats result. -/
def statsTotal : StorageStats → Nat
  | StorageStats.onlyTotal t => t
  | StorageStats.full s => s.total_interactions

/-- Model of `get_storage_stats`.  The file size reported by
`os.path.getsize` is an external input, passed in as `fileSize`
(the file exists, `ensure_storage_file_exists` created it). -/
def get_storage_stats (store : List InteractionRecord) (fileSize : Nat) : StorageStats :=
  if store.isEmpty then StorageStats.onlyTotal 0
  else
    let total_interactions := store.length
    let successful_interactions := (store.filter (fun i => i.success)).length
    let failed_interactions := total_interactions - successful_interactions
    let total_recipes_generated := (store.map (fun i => i.recipe_count)).sum
    StorageStats.full
      { total_interactions := total_interactions
        successful_interactions := successful_interactions
        failed_interactions := failed_interactions
        success_rate :=
          if 0 < total_interactions then
            ((successful_interactions : ℚ) / (total_interactions : ℚ)) * 100
          else 0
        total_recipes_generated := total_recipes_generated
        average_recipes_per_interaction :=
          if 0 < successful_interactions then
            (total_recipes_generated : ℚ) / (successful_interactions : ℚ)
          else 0
        file_size_bytes := fileSize }

/-! Concrete values used by the claim theorems' counterexamples and
witnesses. -/

/-- A model response whose JSON decodes to one structurally valid recipe. -/
def goodRecipeJson : List Char :=
  ("\x7b\"recipes\":[\x7b\"name\":\"omelette\",\"ingredients\":[\"egg\"],\"instructions\":[\"cook\"],\"cookingTime\":\"5 minutes\",\"difficulty\":\"Easy\",\"nutrition\":\x7b\"calories\":150,\"protein\":\"12g\",\"carbs\":\"1g\"\x7d\x7d]\x7d").toList

/-- A model response whose `recipes` array mixes that structurally valid
recipe with one that is missing required fields. -/
def mixedRecipesJson : List Char :=
  ("\x7b\"recipes\":[\x7b\"name\":\"omelette\",\"ingredients\":[\"egg\"],\"instructions\":[\"cook\"],\"cookingTime\":\"5 minutes\",\"difficulty\":\"Easy\",\"nutrition\":\x7b\"calories\":150,\"protein\":\"12g\",\"carbs\":\"1g\"\x7d\x7d,\x7b\"name\":\"x\"\x7d]\x7d").toList

/-- The structurally valid recipe those payloads contain. -/
def omeletteRecipe : Recipe :=
  { name := ("omelette").toList
    ingredients := [(("egg").toList)]
    instructions := [(("cook").toList)]
    cookingTime := ("5 minutes").toList
    difficulty := ("Easy").toList
    nutrition := { calories := 150, protein := ("12g").toList, carbs := ("1g").toList } }

/-- A sample stored interaction (used to probe the read-side queries). -/
def sampleRecord (n : Nat) (b : Bool) : InteractionRecord :=
  { interaction_id := natChars n
    timestamp := []
    ingredients := []
    ingredient_count := 0
    raw_response := []
    response_length := 0
    response_type := ("str").toList
    recipes := []
    recipe_count := n
    success := b
    error_message := none
    processing_status := if b then ("success").toList else ("failed").toList }

/-- A five-record store. -/
def sampleStore5 : List InteractionRecord :=
  [sampleRecord 1 true, sampleRecord 2 true, sampleRecord 3 true,
   sampleRecord 4 true, sampleRecord 5 true]

/-- A fixed timestamp rendering (for the id-collision counterexample). -/
def tsA : List Char := ("20240101_000000").toList

/-! Machinery theorems: the occurrence scans compute first and last occurrences. -/

theorem occursAt_le_length {s pat : List Char} {i : Nat}
    (hpat : pat ≠ []) (h : occursAt s pat i) : i ≤ s.length := by
  by_contra hgt
  push_neg at hgt
  have hdrop : s.drop i = [] := List.drop_eq_nil_of_le (Nat.le_of_lt hgt)
  unfold occursAt at h
  rw [hdrop] at h
  simp at h
  exact hpat h

theorem findFrom_sound {s pat : List Char} :
    ∀ fuel i p, findFrom s pat i fuel = some p →
      occursAt s pat p ∧ i ≤ p ∧ ∀ j, i ≤ j → j < p → ¬ occursAt s pat j := by
  intro fuel
  induction fuel with
  | zero => intro i p h; simp [findFrom] at h
  | succ n ih =>
    intro i p h
    unfold findFrom at h
    by_cases hocc : occursAt s pat i
    · simp [hocc] at h
      subst h
      exact ⟨hocc, Nat.le_refl _, fun j h1 h2 _ => absurd (Nat.lt_of_le_of_lt h1 h2) (Nat.lt_irrefl _)⟩
    · simp [hocc] at h
      obtain ⟨ho, hle, hmin⟩ := ih (i + 1) p h
      refine ⟨ho, Nat.le_of_succ_le hle, fun j h1 h2 => ?_⟩
      rcases Nat.eq_or_lt_of_le h1 with heq | hlt
      · subst heq; exact hocc
      · exact hmin j hlt h2

theorem findFrom_complete {s pat : List Char} :
    ∀ fuel i p, occursAt s pat p → i ≤ p → p < i + fuel →
      ∃ q, findFrom s pat i fuel = some q := by
  intro fuel
  induction fuel with
  | zero => intro i p _ h1 h2; omega
  | succ n ih =>
    intro i p ho h1 h2
    unfold findFrom
    by_cases hocc : occursAt s pat i
    · exact ⟨i, by simp [hocc]⟩
    · have hne : i ≠ p := fun h => hocc (h ▸ ho)
      have h1' : i + 1 ≤ p := Nat.lt_of_le_of_ne h1 hne
      obtain ⟨q, hq⟩ := ih (i + 1) p ho h1' (by omega)
      exact ⟨q, by simp [hocc, hq]⟩

/-- `findSub` returns exactly the first occurrence. -/
theorem findSub_eq_of_isFirstOcc {s pat : List Char} {p : Nat}
    (hpat : pat ≠ []) (h : isFirstOcc s pat p) : findSub s pat = some p := by
  obtain ⟨ho, hmin⟩ := h
  have hp_le : p ≤ s.length := occursAt_le_length hpat ho
  obtain ⟨q, hq⟩ := findFrom_complete (s.length + 1) 0 p ho (Nat.zero_le _) (by omega)
  obtain ⟨hoq, _, hminq⟩ := findFrom_sound _ _ _ hq
  have hqp : ¬ q < p := fun hlt => hmin q hlt hoq
  have hpq : ¬ p < q := fun hlt => hminq p (Nat.zero_le _) hlt ho
  have : q = p := by omega
  rw [findSub, hq, this]

theorem rfindDown_sound {s pat : List Char} :
    ∀ i p, rfindDown s pat i = some p →
      occursAt s pat p ∧ p ≤ i ∧ ∀ j, p < j → j ≤ i → ¬ occursAt s pat j := by
  intro i
  induction i with
  | zero =>
    intro p h
    unfold rfindDown at h
    by_cases hocc : occursAt s pat 0
    · simp [hocc] at h; subst h
      exact ⟨hocc, Nat.le_refl _, fun j h1 h2 => by omega⟩
    · simp [hocc] at h
  | succ n ih =>
    intro p h
    unfold rfindDown at h
    by_cases hocc : occursAt s pat (n + 1)
    · simp [hocc] at h; subst h
      exact ⟨hocc, Nat.le_refl _, fun j h1 h2 => by omega⟩
    · simp [hocc] at h
      obtain ⟨ho, hle, hmax⟩ := ih p h
      refine ⟨ho, Nat.le_succ_of_le hle, fun j h1 h2 => ?_⟩
      rcases Nat.eq_or_lt_of_le h2 with heq | hlt
      · subst heq; exact hocc
      · exact hmax j h1 (Nat.lt_succ_iff.mp hlt)

theorem rfindDown_complete {s pat : List Char} :
    ∀ i p, occursAt s pat p → p ≤ i →
      ∃ q, rfindDown s pat i = some q ∧ p ≤ q := by
  intro i
  induction i with
  | zero =>
    intro p ho hle
    have : p = 0 := Nat.le_zero.mp hle
    subst this
    exact ⟨0, by simp [rfindDown, ho], Nat.le_refl _⟩
  | succ n ih =>
    intro p ho hle
    unfold rfindDown
    by_cases hocc : occursAt s pat (n + 1)
    · exact ⟨n + 1, by simp [hocc], hle⟩
    · have hne : p ≠ n + 1 := fun h => hocc (h ▸ ho)
      obtain ⟨q, hq, hpq⟩ := ih p ho (by omega)
      exact ⟨q, by simp [hocc, hq], hpq⟩

/-- `rfindSub` returns exactly the last occurrence. -/
theorem rfindSub_eq_of_isLastOcc {s pat : List Char} {q : Nat}
    (hpat : pat ≠ []) (h : isLastOcc s pat q) : rfindSub s pat = some q := by
  obtain ⟨ho, hmax⟩ := h
  have hq_le : q ≤ s.length := occursAt_le_length hpat ho
  obtain ⟨q', hq', hle⟩ := rfindDown_complete s.length q ho hq_le
  obtain ⟨hoq', hq'le, _⟩ := rfindDown_sound _ _ hq'
  have : q' ≤ q := hmax q' hq'le hoq'
  have : q' = q := by omega
  rw [rfindSub, hq', this]

/-- `containsSub` holds exactly when the pattern occurs somewhere. -/
theorem containsSub_iff {s pat : List Char} (hpat : pat ≠ []) :
    containsSub s pat = true ↔ ∃ i, occursAt s pat i := by
  constructor
  · intro h
    unfold containsSub findSub at h
    obtain ⟨p, hp⟩ := Option.isSome_iff_exists.mp h
    exact ⟨p, (findFrom_sound _ _ _ hp).1⟩
  · intro ⟨i, hi⟩
    have hle : i ≤ s.length := occursAt_le_length hpat hi
    obtain ⟨q, hq⟩ := findFrom_complete (s.length + 1) 0 i hi (Nat.zero_le _) (by omega)
    unfold containsSub findSub
    simp [hq]

/-! String lemmas: stripping and lowercasing. -/

theorem toNat_ofNat_le (n : Nat) (hn : n ≤ 122) : (Char.ofNat n).toNat = n := by
  have hv : n.isValidChar := Or.inl (by omega)
  rw [Char.ofNat, dif_pos hv]
  show (UInt32.ofNat' n _).toNat = n
  simp [UInt32.ofNat', UInt32.toNat, BitVec.toNat_ofNatLt]

theorem toLower_eq_of_upper (c : Char) (h : 65 ≤ c.toNat ∧ c.toNat ≤ 90) :
    Char.toLower c = Char.ofNat (c.toNat + 32) := by
  show (if c.toNat ≥ 65 ∧ c.toNat ≤ 90 then Char.ofNat (c.toNat + 32) else c) = _
  rw [if_pos h]

theorem toLower_eq_self (c : Char) (h : ¬ (65 ≤ c.toNat ∧ c.toNat ≤ 90)) :
    Char.toLower c = c := by
  show (if c.toNat ≥ 65 ∧ c.toNat ≤ 90 then Char.ofNat (c.toNat + 32) else c) = c
  rw [if_neg h]

theorem toNat_toLower (c : Char) :
    (Char.toLower c).toNat = if 65 ≤ c.toNat ∧ c.toNat ≤ 90 then c.toNat + 32 else c.toNat := by
  by_cases h : 65 ≤ c.toNat ∧ c.toNat ≤ 90
  · rw [toLower_eq_of_upper c h, if_pos h]
    exact toNat_ofNat_le _ (by omega)
  · rw [toLower_eq_self c h, if_neg h]

theorem isPySpace_toLower (c : Char) : isPySpace (Char.toLower c) = isPySpace c := by
  by_cases h : 65 ≤ c.toNat ∧ c.toNat ≤ 90
  · have h1 : isPySpace (Char.toLower c) = false := by
      simp only [isPySpace, toNat_toLower, if_pos h, decide_eq_false_iff_not]
      omega
    have h2 : isPySpace c = false := by
      simp only [isPySpace, decide_eq_false_iff_not]
      omega
    rw [h1, h2]
  · rw [toLower_eq_self c h]

theorem toLower_toLower (c : Char) : Char.toLower (Char.toLower c) = Char.toLower c := by
  by_cases h : 65 ≤ c.toNat ∧ c.toNat ≤ 90
  · have hn : (Char.toLower c).toNat = c.toNat + 32 := by rw [toNat_toLower, if_pos h]
    exact toLower_eq_self _ (by omega)
  · rw [toLower_eq_self c h, toLower_eq_self c h]

theorem pyLower_length (s : List Char) : (pyLower s).length = s.length :=
  List.length_map s Char.toLower

theorem pyLower_nil_iff (s : List Char) : pyLower s = [] ↔ s = [] := by
  unfold pyLower
  exact List.map_eq_nil_iff

theorem pyLower_idem (s : List Char) : pyLower (pyLower s) = pyLower s := by
  unfold pyLower
  rw [List.map_map]
  exact List.map_congr_left (fun c _ => toLower_toLower c)

/-- The model strip is the composition of Mathlib's left and right
whitespace drops. -/
theorem pyStrip_eq (s : List Char) :
    pyStrip s = List.rdropWhile isPySpace (List.dropWhile isPySpace s) := rfl

theorem pyStrip_idem (s : List Char) : pyStrip (pyStrip s) = pyStrip s := by
  rw [pyStrip_eq, pyStrip_eq]
  have h1 : List.dropWhile isPySpace
      (List.rdropWhile isPySpace (List.dropWhile isPySpace s)) =
      List.rdropWhile isPySpace (List.dropWhile isPySpace s) := by
    rw [List.dropWhile_eq_self_iff]
    intro hl
    have hpre := List.rdropWhile_prefix isPySpace (List.dropWhile isPySpace s)
    have hlt : 0 < (List.dropWhile isPySpace s).length :=
      Nat.lt_of_lt_of_le hl hpre.length_le
    have hgetel := hpre.getElem hl
    have hnot := List.dropWhile_get_zero_not isPySpace s hlt
    simp only [List.get_eq_getElem] at hnot ⊢
    rw [hgetel]
    exact hnot
  rw [h1, List.rdropWhile_idempotent]

theorem pyStrip_length_le (s : List Char) : (pyStrip s).length ≤ s.length := by
  rw [pyStrip_eq]
  calc (List.rdropWhile isPySpace (List.dropWhile isPySpace s)).length
      ≤ (List.dropWhile isPySpace s).length :=
        (List.rdropWhile_prefix _ _).length_le
    _ ≤ s.length := (List.dropWhile_suffix _).length_le

theorem pyStrip_pyLower (s : List Char) : pyStrip (pyLower s) = pyLower (pyStrip s) := by
  have hfun : (isPySpace ∘ Char.toLower) = isPySpace := funext isPySpace_toLower
  unfold pyLower
  rw [pyStrip_eq, pyStrip_eq, List.rdropWhile, List.rdropWhile,
    List.dropWhile_map, hfun, ← List.map_reverse, List.dropWhile_map, hfun,
    ← List.map_reverse]

theorem pyStrip_nil : pyStrip [] = [] := rfl

/-! Claim theorems. -/

/-- The generation client's failure envelopes always carry an empty recipe
list and a non-null message. -/
theorem generate_recipes_failure_shape (ingredients : List (List Char))
    (modelOutcome : Except (List Char) (List Char)) :
    (generate_recipes ingredients modelOutcome).success = false →
      (generate_recipes ingredients modelOutcome).recipes = [] ∧
      (generate_recipes ingredients modelOutcome).message ≠ none := by
  cases modelOutcome with
  | error e => intro _; simp [generate_recipes]
  | ok text =>
    cases hp : parse_ai_response text with
    | ok recipes => simp [generate_recipes, hp]
    | error f => intro _; simp [generate_recipes, hp]

/-- Helper: the normalizer in claim-side form — keep the entries whose
trimmed form is non-empty and at most 100 characters, then trim-and-lower
each survivor. -/
theorem sanitize_eq_filter_map (ingredients : List (List Char)) :
    sanitize_ingredients ingredients =
      (ingredients.filter
        (fun i => decide (pyStrip i ≠ [] ∧ (pyStrip i).length ≤ 100))).map
        (fun i => pyLower (pyStrip i)) := by
  induction ingredients with
  | nil => rfl
  | cons a l ih =>
    have hlen' := pyLower_length (pyStrip a)
    have hnil' := pyLower_nil_iff (pyStrip a)
    have hiff : (pyLower (pyStrip a) ≠ [] ∧ (pyLower (pyStrip a)).length ≤ 100) ↔
        (pyStrip a ≠ [] ∧ (pyStrip a).length ≤ 100) := by
      constructor
      · rintro ⟨h1, h2⟩
        exact ⟨fun hh => h1 (hnil'.mpr hh), hlen' ▸ h2⟩
      · rintro ⟨h1, h2⟩
        exact ⟨fun hh => h1 (hnil'.mp hh), by rw [hlen']; exact h2⟩
    by_cases h : pyStrip a ≠ [] ∧ (pyStrip a).length ≤ 100
    · have hfilter : List.filter
          (fun i => decide (pyStrip i ≠ [] ∧ (pyStrip i).length ≤ 100)) (a :: l) =
          a :: List.filter
          (fun i => decide (pyStrip i ≠ [] ∧ (pyStrip i).length ≤ 100)) l :=
        List.filter_cons_of_pos (by simpa using h)
      rw [show sanitize_ingredients (a :: l) =
          pyLower (pyStrip a) :: sanitize_ingredients l from
          List.filterMap_cons_some (if_pos (hiff.mpr h)),
        hfilter, List.map_cons]
      exact congrArg _ ih
    · have hfilter : List.filter
          (fun i => decide (pyStrip i ≠ [] ∧ (pyStrip i).length ≤ 100)) (a :: l) =
          List.filter
          (fun i => decide (pyStrip i ≠ [] ∧ (pyStrip i).length ≤ 100)) l :=
        List.filter_cons_of_neg (by simpa using h)
      rw [show sanitize_ingredients (a :: l) = sanitize_ingredients l from
          List.filterMap_cons_none (if_neg (fun hc => h (hiff.mp hc))),
        hfilter]
      exact ih

/-- C9 — Normalizer correctness: `sanitize_ingredients` returns exactly
the trimmed-and-lowercased forms of the entries whose trimmed form is
non-empty and at most 100 characters, in order and without deduplication;
and whenever some entry is non-blank and at most 100 characters long, the
output is non-empty and every output entry is its own lowercase
(`pyLower o = o`) and its own trim (`pyStrip o = o`). -/
theorem c9_normalizer_correct (ingredients : List (List Char)) :
    (sanitize_ingredients ingredients =
      (ingredients.filter
        (fun i => decide (pyStrip i ≠ [] ∧ (pyStrip i).length ≤ 100))).map
        (fun i => pyLower (pyStrip i)))
    ∧ ((∃ i ∈ ingredients, pyStrip i ≠ [] ∧ i.length ≤ 100) →
        sanitize_ingredients ingredients ≠ [] ∧
        ∀ o ∈ sanitize_ingredients ingredients, pyLower o = o ∧ pyStrip o = o) := by
  refine ⟨sanitize_eq_filter_map ingredients, fun ⟨i, hi, hne, hlen⟩ => ?_⟩
  rw [sanitize_eq_filter_map ingredients]
  constructor
  · intro hnil
    rw [List.map_eq_nil_iff] at hnil
    have : i ∈ ingredients.filter
        (fun i => decide (pyStrip i ≠ [] ∧ (pyStrip i).length ≤ 100)) := by
      rw [List.mem_filter]
      exact ⟨hi, decide_eq_true ⟨hne, Nat.le_trans (pyStrip_length_le i) hlen⟩⟩
    rw [hnil] at this
    exact absurd this (List.not_mem_nil i)
  · intro o ho
    rw [List.mem_map] at ho
    obtain ⟨x, _, hx⟩ := ho
    subst hx
    exact ⟨pyLower_idem (pyStrip x),
      by rw [pyStrip_pyLower, pyStrip_idem]⟩

/-- C1 counterexample — the claimed invariant fails for the generation
client: when the model returns `{"recipes": []}` (decodes fine, zero
recipes), `generate_recipes` returns `success = true` with an empty
recipe list. -/
theorem c1_envelope_counterexample :
    ¬ envelopeOK (generate_recipes [(("egg").toList)]
      (Except.ok (("\x7b\"recipes\": []\x7d").toList))) := by decide

/-- C1 amended — the envelope invariant holds in full for every result of
the orchestrator `generate_recipes_from_ingredients`; for the generation
client `generate_recipes` the failure half holds (`success = false`
implies empty recipes and a non-null message), but `success = true` may
carry an empty recipe list (when zero valid recipes parse). -/
theorem c1_envelope_amended (ingredients : List (List Char))
    (modelOutcome : Except (List Char) (List Char)) :
    envelopeOK (generate_recipes_from_ingredients ingredients modelOutcome)
    ∧ ((generate_recipes ingredients modelOutcome).success = false →
        (generate_recipes ingredients modelOutcome).recipes = [] ∧
        (generate_recipes ingredients modelOutcome).message ≠ none) := by
  refine ⟨?_, generate_recipes_failure_shape ingredients modelOutcome⟩
  unfold generate_recipes_from_ingredients
  by_cases h1 : ingredients = []
  · simp [h1, envelopeOK, failResponse]
  · simp only [if_neg h1]
    by_cases h2 : ingredients.filter (fun i => !(pyStrip i).isEmpty) = []
    · simp [h2, envelopeOK, failResponse]
    · simp only [h2, if_neg, if_false]
      by_cases h3 : (generate_recipes
          (ingredients.filter (fun i => !(pyStrip i).isEmpty)) modelOutcome).success = false
      · simp only [if_pos h3]
        refine ⟨fun ht => ?_, fun _ => generate_recipes_failure_shape _ _ h3⟩
        rw [ht] at h3
        exact absurd h3 (by simp)
      · simp only [if_neg h3]
        by_cases h4 : (generate_recipes
            (ingredients.filter (fun i => !(pyStrip i).isEmpty)) modelOutcome).recipes = []
        · simp [h4, envelopeOK, failResponse]
        · simp only [if_neg h4]
          exact ⟨fun _ => h4, fun hf => absurd hf h3⟩

/-- C1 witness: the amended invariant at a concrete input. -/
theorem c1_envelope_amended_witness :
    envelopeOK (generate_recipes_from_ingredients [] (Except.error [])) :=
  (c1_envelope_amended [] (Except.error [])).1

set_option maxRecDepth 8192 in
/-- C2 counterexample — the claim's short-circuit does not extend to
over-length entries: a list whose single entry is 101 characters long
(non-blank, so it survives the blank filter) reaches the model, and when
the model returns one valid recipe the orchestrator answers
`success = true`, not the claimed failure envelope. -/
theorem c2_shortcircuit_counterexample :
    (generate_recipes_from_ingredients [List.replicate 101 'a']
      (Except.ok goodRecipeJson)).success = true := by decide

/-- C2 amended — the orchestrator short-circuits exactly on the two
claimed cases other than over-length: an empty ingredient list returns the
failure envelope "No ingredients provided" (tested first), and a non-empty
list whose entries are all blank returns the failure envelope
"No valid ingredients found" (tested second); both carry `success = false`,
an empty recipe list and that non-null message, with no exception.
Entirely over-length (but non-blank) lists are not short-circuited. -/
theorem c2_shortcircuit_amended (ingredients : List (List Char))
    (modelOutcome : Except (List Char) (List Char)) :
    (ingredients = [] →
      generate_recipes_from_ingredients ingredients modelOutcome =
        failResponse (("No ingredients provided").toList))
    ∧ (ingredients ≠ [] → (∀ i ∈ ingredients, pyStrip i = []) →
      generate_recipes_from_ingredients ingredients modelOutcome =
        failResponse (("No valid ingredients found").toList)) := by
  constructor
  · intro h
    simp [generate_recipes_from_ingredients, h]
  · intro h1 h2
    have hf : ingredients.filter (fun i => !(pyStrip i).isEmpty) = [] := by
      rw [List.filter_eq_nil_iff]
      intro a ha
      simp [h2 a ha]
    simp [generate_recipes_from_ingredients, h1, hf]

/-- C2 witness: the amended short-circuit at concrete inputs (the empty
list, and the all-blank list `[" "]`). -/
theorem c2_shortcircuit_amended_witness :
    generate_recipes_from_ingredients [] (Except.error []) =
      failResponse (("No ingredients provided").toList)
    ∧ generate_recipes_from_ingredients [((" ").toList)] (Except.error []) =
      failResponse (("No valid ingredients found").toList) :=
  ⟨(c2_shortcircuit_amended [] (Except.error [])).1 rfl,
    (c2_shortcircuit_amended [((" ").toList)] (Except.error [])).2
      (by decide) (by decide)⟩

/-- C3 — batch-fatal parse failure: whenever the extracted JSON candidate
does not decode, `_parse_ai_response` fails with the batch-level
ParseError (`ValueError("Failed to parse AI response as JSON")`) rather
than returning a partial or empty result, and `generate_recipes` catches
it and converts it into a `success = false` envelope carrying the error's
description. -/
theorem c3_batch_fatal_parse (raw : List Char)
    (h : jsonDecode (parseCandidate raw) = none) :
    parse_ai_response raw = Except.error ParseFailure.malformedJSON
    ∧ ∀ ingredients, generate_recipes ingredients (Except.ok raw) =
        { recipes := [], success := false,
          message := some
            (("Failed to generate recipes: Failed to parse AI response as JSON").toList) } := by
  have hp : parse_ai_response raw = Except.error ParseFailure.malformedJSON := by
    unfold parse_ai_response
    rw [h]
  refine ⟨hp, fun ingredients => ?_⟩
  have : generate_recipes ingredients (Except.ok raw) =
      { recipes := [], success := false,
        message := some ((("Failed to generate recipes: ").toList)
          ++ describeFailure ParseFailure.malformedJSON) } := by
    simp [generate_recipes, hp]
  rw [this]
  decide

/-- C3 witness: the raw text "not json at all" yields no decodable
candidate, and parsing it fails with the batch-level ParseError. -/
theorem c3_batch_fatal_parse_witness :
    jsonDecode (parseCandidate (("not json at all").toList)) = none
    ∧ parse_ai_response (("not json at all").toList) =
        Except.error ParseFailure.malformedJSON :=
  ⟨by rfl, (c3_batch_fatal_parse (("not json at all").toList) (by rfl)).1⟩

/-- Helper: every occurrence of the JSON-tagged marker is an occurrence of
the generic fence marker (the latter is a prefix of the former). -/
theorem occursAt_fence_of_json {s : List Char} {i : Nat}
    (h : occursAt s tagJson i) : occursAt s tagFence i := by
  unfold occursAt at h ⊢
  have h3 : (s.drop i).take tagFence.length =
      ((s.drop i).take tagJson.length).take tagFence.length := by
    rw [List.take_take]
    rw [show tagFence.length ⊓ tagJson.length = tagFence.length from by decide]
  rw [h3, h]
  rfl

/-- C4 — fence extraction order: the candidate `_parse_ai_response`
decodes is (1) the substring strictly between the end of the first
JSON-tagged marker and the last generic marker when a JSON-tagged marker
occurs, else (2) the substring strictly between the end of the first
generic marker and the last generic marker when a generic marker occurs,
else (3) the whole trimmed text; and concretely the fenced raw text
"```json\n{\"recipes\":[]}\n```" parses to an empty recipe sequence
without error. -/
theorem c4_fence_extraction (raw : List Char) :
    (∀ p q, isFirstOcc (pyStrip raw) tagJson p →
        isLastOcc (pyStrip raw) tagFence q →
        parseCandidate raw =
          pyStrip (pySlice (pyStrip raw) (p + tagJson.length) q))
    ∧ ((¬ ∃ i, occursAt (pyStrip raw) tagJson i) →
        ∀ p q, isFirstOcc (pyStrip raw) tagFence p →
          isLastOcc (pyStrip raw) tagFence q →
          parseCandidate raw =
            pyStrip (pySlice (pyStrip raw) (p + tagFence.length) q))
    ∧ ((¬ ∃ i, occursAt (pyStrip raw) tagFence i) →
        parseCandidate raw = pyStrip raw)
    ∧ parse_ai_response (("```json\n\x7b\"recipes\":[]\x7d\n```").toList) =
        Except.ok [] := by
  refine ⟨?_, ?_, ?_, by rfl⟩
  · intro p q hfirst hlast
    have hfind := findSub_eq_of_isFirstOcc (by decide) hfirst
    have hrfind := rfindSub_eq_of_isLastOcc (by decide) hlast
    have hcont : containsSub (pyStrip raw) tagJson = true := by
      unfold containsSub
      rw [hfind]
      rfl
    unfold parseCandidate extractCandidate
    rw [hcont, if_pos rfl, hfind, hrfind]
    rfl
  · intro hnone p q hfirst hlast
    have hcont : containsSub (pyStrip raw) tagJson = false := by
      cases hc : containsSub (pyStrip raw) tagJson
      · rfl
      · exact absurd ((containsSub_iff (by decide)).mp hc) hnone
    have hfind := findSub_eq_of_isFirstOcc (by decide) hfirst
    have hrfind := rfindSub_eq_of_isLastOcc (by decide) hlast
    have hcont2 : containsSub (pyStrip raw) tagFence = true := by
      unfold containsSub
      rw [hfind]
      rfl
    unfold parseCandidate extractCandidate
    rw [hcont, hcont2, if_neg (by simp), if_pos rfl, hfind, hrfind]
    rfl
  · intro hnone
    have hcont2 : containsSub (pyStrip raw) tagFence = false := by
      cases hc : containsSub (pyStrip raw) tagFence
      · rfl
      · exact absurd ((containsSub_iff (by decide)).mp hc) hnone
    have hcont : containsSub (pyStrip raw) tagJson = false := by
      cases hc : containsSub (pyStrip raw) tagJson
      · rfl
      · obtain ⟨i, hi⟩ := (containsSub_iff (by decide)).mp hc
        exact absurd ((containsSub_iff (by decide)).mpr
          ⟨i, occursAt_fence_of_json hi⟩) (by rw [hcont2]; simp)
    unfold parseCandidate extractCandidate
    rw [hcont, hcont2, if_neg (by simp), if_neg (by simp)]

/-- C4 witness: the extraction rule applied at the concrete raw text
"x ```json {} ``` y" (first JSON-tagged marker at index 2, last generic
marker at index 13). -/
theorem c4_fence_extraction_witness :
    isFirstOcc (pyStrip (("x ```json \x7b\x7d ``` y").toList)) tagJson 2
    ∧ isLastOcc (pyStrip (("x ```json \x7b\x7d ``` y").toList)) tagFence 13
    ∧ parseCandidate (("x ```json \x7b\x7d ``` y").toList) =
        pyStrip (pySlice (pyStrip (("x ```json \x7b\x7d ``` y").toList))
          (2 + tagJson.length) 13) :=
  ⟨by decide, by decide,
    (c4_fence_extraction (("x ```json \x7b\x7d ``` y").toList)).1 2 13
      (by decide) (by decide)⟩

/-- C10 — unclosed JSON fence: when the JSON-tagged marker occurs but no
generic marker occurs at or after its end, `rfind` returns a position
before the slice's start, the candidate is the empty string, and parse
fails with the batch-level ParseError instead of falling back to decoding
the full text. -/
theorem c10_unclosed_fence (raw : List Char) (p : Nat)
    (h1 : isFirstOcc (pyStrip raw) tagJson p)
    (h2 : ∀ i, i ≤ (pyStrip raw).length → p + tagJson.length ≤ i →
      ¬ occursAt (pyStrip raw) tagFence i) :
    parseCandidate raw = []
    ∧ parse_ai_response raw = Except.error ParseFailure.malformedJSON := by
  have hfind := findSub_eq_of_isFirstOcc (by decide) h1
  have hoccF : occursAt (pyStrip raw) tagFence p := occursAt_fence_of_json h1.1
  have hple : p ≤ (pyStrip raw).length := occursAt_le_length (by decide) h1.1
  obtain ⟨q, hq, hpq⟩ := rfindDown_complete (pyStrip raw).length p hoccF hple
  obtain ⟨hoccq, hqle, _⟩ := rfindDown_sound _ _ hq
  have hrfind : rfindSub (pyStrip raw) tagFence = some q := hq
  have hqlt : q < p + tagJson.length := by
    by_contra hge
    push_neg at hge
    exact h2 q hqle hge hoccq
  have hcont : containsSub (pyStrip raw) tagJson = true := by
    unfold containsSub
    rw [hfind]
    rfl
  have hcand : parseCandidate raw = [] := by
    unfold parseCandidate extractCandidate
    rw [hcont, if_pos rfl, hfind, hrfind]
    show pyStrip (pySlice (pyStrip raw) (p + tagJson.length) q) = []
    unfold pySlice
    rw [Nat.sub_eq_zero_of_le (Nat.le_of_lt hqlt), List.take_zero]
    rfl
  refine ⟨hcand, ?_⟩
  unfold parse_ai_response
  rw [hcand]
  rfl

/-- C10 witness: the raw text "blah ```json {" (JSON-tagged marker at
index 5, no generic marker at or after index 12) yields an empty candidate
and the batch-level ParseError. -/
theorem c10_unclosed_fence_witness :
    isFirstOcc (pyStrip (("blah ```json \x7b").toList)) tagJson 5
    ∧ parse_ai_response (("blah ```json \x7b").toList) =
        Except.error ParseFailure.malformedJSON :=
  ⟨by decide,
    (c10_unclosed_fence (("blah ```json \x7b").toList) 5 (by decide) (by decide)).2⟩

/-- Witness for C9 at a concrete input: `["  Egg  ", "   "]` has a
non-blank short entry, and the normalizer keeps exactly `"egg"`. -/
theorem c9_normalizer_correct_witness :
    (∃ i ∈ [(("  Egg  ").toList), (("   ").toList)], pyStrip i ≠ [] ∧ i.length ≤ 100) ∧
      sanitize_ingredients [(("  Egg  ").toList), (("   ").toList)] ≠ [] :=
  ⟨by decide,
    ((c9_normalizer_correct [(("  Egg  ").toList), (("   ").toList)]).2 (by decide)).1⟩

/-- Unfolding equation for `buildRecipes` on an object payload. -/
theorem buildRecipes_obj (fields : List (List Char × Json)) :
    buildRecipes (Json.jobj fields) =
      match (jsonGet fields (("recipes").toList)).getD (Json.jarr []) with
      | Json.jarr xs => Except.ok (xs.filterMap recipeFromJson)
      | Json.jstr _ => Except.ok []
      | Json.jobj _ => Except.ok []
      | _ => Except.error ParseFailure.processFailure := rfl

/-- C5 counterexample — the per-record leniency claim fails for decoded
payloads that are not objects: the raw text "[]" decodes successfully
(no `recipes` key, so the claim predicts an empty result), but the source
calls `.get` on the decoded list, raising `AttributeError`, which is
re-raised as the batch-fatal "Failed to process AI response" ValueError. -/
theorem c5_leniency_counterexample :
    jsonDecode (parseCandidate (("[]").toList)) = some (Json.jarr [])
    ∧ parse_ai_response (("[]").toList) =
        Except.error ParseFailure.processFailure :=
  ⟨rfl, rfl⟩

set_option maxRecDepth 8192 in
/-- C5 amended — per-record leniency holds for every successfully decoded
payload that is an object: an absent `recipes` key defaults to the empty
sequence, and when the `recipes` key holds an array, parse returns exactly
the elements that construct a structurally valid Recipe, in their original
order (`filterMap`), skipping each failing element without raising; and
concretely the mixed payload (one valid recipe, one missing required
fields) parses to just the valid recipe. -/
theorem c5_leniency_amended (raw : List Char) (fields : List (List Char × Json))
    (h : jsonDecode (parseCandidate raw) = some (Json.jobj fields)) :
    (jsonGet fields (("recipes").toList) = none →
      parse_ai_response raw = Except.ok [])
    ∧ (∀ xs, jsonGet fields (("recipes").toList) = some (Json.jarr xs) →
      parse_ai_response raw = Except.ok (xs.filterMap recipeFromJson))
    ∧ parse_ai_response mixedRecipesJson = Except.ok [omeletteRecipe] := by
  have hstep : parse_ai_response raw = buildRecipes (Json.jobj fields) := by
    unfold parse_ai_response
    rw [h]
  refine ⟨?_, ?_, by rfl⟩
  · intro hnone
    rw [hstep, buildRecipes_obj, hnone]
    rfl
  · intro xs harr
    rw [hstep, buildRecipes_obj, harr]
    rfl

/-- C5 witness: a decoded object payload without a `recipes` key parses to
the empty recipe sequence. -/
theorem c5_leniency_amended_witness :
    jsonDecode (parseCandidate (("\x7b\"a\":1\x7d").toList)) =
      some (Json.jobj [((("a").toList), Json.jnum 1)])
    ∧ parse_ai_response (("\x7b\"a\":1\x7d").toList) = Except.ok [] :=
  ⟨rfl, (c5_leniency_amended (("\x7b\"a\":1\x7d").toList)
    [((("a").toList), Json.jnum 1)] rfl).1 rfl⟩

/-- C6 counterexample — `get_recent` with limit 0 on a one-record store
returns the whole store (`interactions[-0:]` is the full slice), not the
claimed `min(0, 1) = 0` records. -/
theorem c6_get_recent_counterexample :
    get_recent_interactions [sampleRecord 1 true] 0 = [sampleRecord 1 true]
    ∧ (get_recent_interactions [sampleRecord 1 true] 0).length ≠ min 0 1 :=
  ⟨rfl, by decide⟩

/-- C6 amended — for every store and every positive limit, `get_recent`
returns the last `min(limit, n)` records in original append order (a
suffix of the store), and returns the whole store when it has at most
`limit` records.  (At limit 0 the code instead returns the whole store.) -/
theorem c6_get_recent_amended (store : List InteractionRecord) (limit : Nat)
    (h : 1 ≤ limit) :
    get_recent_interactions store limit = store.drop (store.length - limit)
    ∧ (get_recent_interactions store limit).length = min limit store.length
    ∧ (∃ pre, store = pre ++ get_recent_interactions store limit)
    ∧ (store.length ≤ limit → get_recent_interactions store limit = store) := by
  have hlim : ¬ limit = 0 := by omega
  have hdrop : get_recent_interactions store limit =
      store.drop (store.length - limit) := by
    unfold get_recent_interactions
    by_cases hs : store.isEmpty
    · rw [if_pos hs, List.isEmpty_iff.mp hs, List.drop_nil]
    · rw [if_neg hs, if_neg hlim]
  refine ⟨hdrop, ?_, ?_, ?_⟩
  · rw [hdrop, List.length_drop]
    omega
  · exact ⟨store.take (store.length - limit),
      by rw [hdrop, List.take_append_drop]⟩
  · intro hle
    rw [hdrop, Nat.sub_eq_zero_of_le hle, List.drop_zero]

/-- C6 witness: on the concrete five-record store, `get_recent(2)` is the
drop of the first three records — exactly the last two in append order. -/
theorem c6_get_recent_amended_witness :
    (1 ≤ 2)
    ∧ get_recent_interactions sampleStore5 2 =
        [sampleRecord 4 true, sampleRecord 5 true] :=
  ⟨by decide, (c6_get_recent_amended sampleStore5 2 (by decide)).1⟩

/-- C7 counterexample — for a store with zero interactions `get_stats`
returns only `{"total_interactions": 0}`: it reports no success-rate field
at all, rather than the claimed success rate of 0. -/
theorem c7_stats_counterexample :
    get_storage_stats [] 0 = StorageStats.onlyTotal 0
    ∧ statsSuccessRate (get_storage_stats [] 0) ≠ some 0 :=
  ⟨rfl, by decide⟩

/-- C7 amended — `get_stats` never divides by zero: a store with zero
interactions returns only the total count 0 (and no success-rate or
average field), and a non-empty store reports total, successful and failed
counts, the success rate `successful/total*100` (the guard's denominator
is the then positive total), the total recipes generated summed across
records, the average recipes per successful interaction (0 when there are
no successful interactions), and the store file's size in bytes. -/
theorem c7_stats_amended (store : List InteractionRecord) (fileSize : Nat) :
    (store = [] → get_storage_stats store fileSize = StorageStats.onlyTotal 0)
    ∧ (store ≠ [] → get_storage_stats store fileSize = StorageStats.full
        { total_interactions := store.length
          successful_interactions := (store.filter (fun i => i.success)).length
          failed_interactions :=
            store.length - (store.filter (fun i => i.success)).length
          success_rate :=
            ((store.filter (fun i => i.success)).length : ℚ)
              / (store.length : ℚ) * 100
          total_recipes_generated := (store.map (fun i => i.recipe_count)).sum
          average_recipes_per_interaction :=
            if 0 < (store.filter (fun i => i.success)).length then
              ((((store.map (fun i => i.recipe_count)).sum : ℕ)) : ℚ)
                / (((store.filter (fun i => i.success)).length : ℚ))
            else 0
          file_size_bytes := fileSize }) := by
  constructor
  · intro h
    rw [h]
    rfl
  · intro h
    have hne : ¬ store.isEmpty = true := by
      rw [List.isEmpty_iff]
      exact h
    have hpos : 0 < store.length := List.length_pos.mpr h
    simp only [get_storage_stats, if_neg hne, if_pos hpos]

/-- C7 witness: the zero-interaction store reports only total 0, and a
concrete two-record store (one success carrying 2 recipes, one failure
carrying 3) reports total 2, one success, one failure, rate 50, 5 recipes
in total, average 5 per successful interaction, and the given file size. -/
theorem c7_stats_amended_witness :
    get_storage_stats [] 3 = StorageStats.onlyTotal 0
    ∧ get_storage_stats [sampleRecord 2 true, sampleRecord 3 false] 7 =
        StorageStats.full
          { total_interactions := 2
            successful_interactions := 1
            failed_interactions := 1
            success_rate := (1 : ℚ) / (2 : ℚ) * 100
            total_recipes_generated := 5
            average_recipes_per_interaction := (5 : ℚ) / (1 : ℚ)
            file_size_bytes := 7 } :=
  ⟨(c7_stats_amended [] 3).1 rfl,
    (c7_stats_amended [sampleRecord 2 true, sampleRecord 3 false] 7).2
      (fun hc => List.noConfusion hc)⟩

/-- C8 counterexample — the append/read round-trip fails on a store that
already holds a record with the id this append generates (two appends in
the same wall-clock second generate the same timestamp-based id):
`get_by_id` scans from the front and returns the older record, whose
ingredients are the ones of the first append, not of this one. -/
theorem c8_roundtrip_counterexample :
    ((get_interaction_by_id
        (store_interaction
          ((store_interaction [] [(("old").toList)] [] [] true none tsA tsA).2)
          [(("new").toList)] [] [] true none tsA tsA).2
        (store_interaction
          ((store_interaction [] [(("old").toList)] [] [] true none tsA tsA).2)
          [(("new").toList)] [] [] true none tsA tsA).1).map
      (fun r => r.ingredients)) = some [(("old").toList)]
    ∧ [(("old").toList)] ≠ [(("new").toList)] :=
  ⟨rfl, by decide⟩

/-- C8 amended — whenever no record of the store already carries the id
generated for this append (ids are fresh, as intended by their
timestamp-based construction), appending one interaction and then calling
`get_by_id` with the returned id yields a record whose ingredients equal
the ingredient list passed in and whose recipe count equals the number of
parsed recipes passed in. -/
theorem c8_roundtrip_amended (store : List InteractionRecord)
    (user_ingredients : List (List Char)) (llm_response : List Char)
    (parsed_recipes : List Json) (success : Bool)
    (error_message : Option (List Char)) (nowCompact nowIso : List Char)
    (hfresh : ∀ r ∈ store, r.interaction_id ≠ generate_interaction_id nowCompact) :
    ((get_interaction_by_id
        (store_interaction store user_ingredients llm_response parsed_recipes
          success error_message nowCompact nowIso).2
        (store_interaction store user_ingredients llm_response parsed_recipes
          success error_message nowCompact nowIso).1).map
      (fun r => r.ingredients) = some user_ingredients)
    ∧ ((get_interaction_by_id
        (store_interaction store user_ingredients llm_response parsed_recipes
          success error_message nowCompact nowIso).2
        (store_interaction store user_ingredients llm_response parsed_recipes
          success error_message nowCompact nowIso).1).map
      (fun r => r.recipe_count) = some parsed_recipes.length) := by
  unfold get_interaction_by_id store_interaction
  rw [List.find?_append]
  have hnone : store.find? (fun i =>
      i.interaction_id == generate_interaction_id nowCompact) = none := by
    rw [List.find?_eq_none]
    intro r hr
    simp only [beq_iff_eq]
    exact hfresh r hr
  rw [hnone]
  constructor
  · simp
  · cases parsed_recipes with
    | nil => simp
    | cons a l => simp

/-- C8 witness: the round-trip at a concrete fresh append onto the empty
store. -/
theorem c8_roundtrip_amended_witness :
    ((get_interaction_by_id
        (store_interaction [] [(("egg").toList)] [] [] true none tsA tsA).2
        (store_interaction [] [(("egg").toList)] [] [] true none tsA tsA).1).map
      (fun r => r.ingredients) = some [(("egg").toList)]) :=
  (c8_roundtrip_amended [] [(("egg").toList)] [] [] true none tsA tsA
    (fun r hr => absurd hr (List.not_mem_nil r))).1

end Axium
